import Mathlib

/-!
Verification development for the room-based messaging server
(the api package: the subscription registry `subscribers`, the
broadcast dispatcher `notifyClients`, the connection lifecycle
`handleSubscribe`, the room resolver `readRoom`, and the listing
handlers `handleGetRooms` and `handleGetRoomMessages`).

The Go source is shallowly embedded: maps become association lists,
`context.CancelFunc` becomes an instrumented per-connection cancel
state (an invocation counter plus the idempotent cancelled flag),
websocket connections become opaque numeric identifiers whose
`WriteJSON` outcome is an environment function `sendOk`, and the
external collaborators (uuid parsing, the pgstore persistence layer)
become explicit result parameters.
-/

namespace WsrsApi

/-! ### String constants, as declared in the source -/

def MsgFailedToGetRoom : String := "failed to get room"
def MsgFailedToGetRoomMessages : String := "failed to get room messages"
def MsgFailedToGetRooms : String := "failed to get rooms"
def MsgFailedToSendMessage : String := "failed to send message to client"
def MsgFailedToUpgradeConnection : String := "failed to upgrade to websocket connection"
def MsgInvalidRoomID : String := "invalid room id"
def MsgNewClientConnected : String := "new client connected"
def MsgRoomNotFound : String := "room not found"
def MsgSomethingWentWrong : String := "something went wrong"

def MessageKindMessageCreated : String := "message_created"
def MessageKindMessageRactionIncreased : String := "message_reaction_increased"
def MessageKindMessageRactionDecreased : String := "message_reaction_decreased"
def MessageKindMessageAnswered : String := "message_answered"

/-! ### JSON values and rendering (the model of encoding/json marshalling;
string escaping is restricted to quote and backslash, the only escapes the
claims can meet) -/

inductive Json : Type where
  | null : Json
  | str : String → Json
  | num : Int → Json
  | arr : List Json → Json
  | obj : List (String × Json) → Json

def escapeString (s : String) : String :=
  (s.replace "\\" "\\\\").replace "\"" "\\\""

mutual

def renderJson : Json → String
  | Json.null => "null"
  | Json.str s => "\"" ++ escapeString s ++ "\""
  | Json.num n => toString n
  | Json.arr xs => "[" ++ renderJsonArr xs ++ "]"
  | Json.obj fs => "\x7b" ++ renderJsonObj fs ++ "\x7d"

def renderJsonArr : List Json → String
  | [] => ""
  | [x] => renderJson x
  | x :: y :: rest => renderJson x ++ "," ++ renderJsonArr (y :: rest)

def renderJsonObj : List (String × Json) → String
  | [] => ""
  | [(k, v)] => "\"" ++ escapeString k ++ "\":" ++ renderJson v
  | (k, v) :: p :: rest =>
      "\"" ++ escapeString k ++ "\":" ++ renderJson v ++ "," ++ renderJsonObj (p :: rest)

end

/-! ### The Message event type and its two payload shapes, as in the source.
The Go struct tags are: Kind is serialized as "kind", Value as "value", and
RoomID carries the tag json:"-", meaning it is omitted from the payload. -/

structure MessageMessageCreated : Type where
  ID : String
  Message : String
deriving DecidableEq, Repr

structure MessageMessageReactionCount : Type where
  ID : String
  Count : Int
deriving DecidableEq, Repr

inductive MessageValue : Type where
  | created : MessageMessageCreated → MessageValue
  | reactionCount : MessageMessageReactionCount → MessageValue
deriving DecidableEq, Repr

structure Message : Type where
  Kind : String
  Value : MessageValue
  RoomID : String
deriving DecidableEq, Repr

def valueToJson : MessageValue → Json
  | MessageValue.created v => Json.obj [("id", Json.str v.ID), ("message", Json.str v.Message)]
  | MessageValue.reactionCount v => Json.obj [("id", Json.str v.ID), ("count", Json.num v.Count)]

def messageToJson (m : Message) : Json :=
  Json.obj [("kind", Json.str m.Kind), ("value", valueToJson m.Value)]

/-! ### The two events the producing handlers construct.
handleCreateRoomMessage builds a message_created event from the inserted
message id and body text; handleReactToMessage builds a
message_reaction_increased event from the message id and the new count. -/

def createdEvent (rawRoomID messageID text : String) : Message :=
  { Kind := MessageKindMessageCreated
    RoomID := rawRoomID
    Value := MessageValue.created { ID := messageID, Message := text } }

def reactionIncreasedEvent (rawRoomID rawMessageID : String) (count : Int) : Message :=
  { Kind := MessageKindMessageRactionIncreased
    RoomID := rawRoomID
    Value := MessageValue.reactionCount { ID := rawMessageID, Count := count } }

/-! ### The subscription registry.
The Go field is subscribers, of type map from room-id string to a map from
websocket connection to its cancel function. Connections are embedded as
numeric identifiers; the registry is an association list from room id to
the list of connection ids of that room (the inner map's key set), with
association-list keys unique as the operations maintain. -/

abbrev ConnId : Type := Nat
abbrev RoomId : Type := String
abbrev Registry : Type := List (RoomId × List ConnId)

/-- Lookup of the subscriber set of a room: none models the key being
absent from the Go map, some s models the key being present with inner
key set s. -/
def lookupRoom : Registry → RoomId → Option (List ConnId)
  | [], _ => none
  | (r, s) :: rest, room => if r = room then some s else lookupRoom rest room

/-- Insertion into the inner map: assigning an existing key overwrites its
value and leaves the key set unchanged, a new key is added. -/
def insertConn (s : List ConnId) (c : ConnId) : List ConnId :=
  if c ∈ s then s else s ++ [c]

/-- Registration, as performed by handleSubscribe under the lock: create
the room's inner map when absent, then assign the connection into it. -/
def register : Registry → RoomId → ConnId → Registry
  | [], room, c => [(room, [c])]
  | (r, s) :: rest, room, c =>
      if r = room then (r, insertConn s c) :: rest
      else (r, s) :: register rest room c

/-- Unregistration, as performed by handleSubscribe after its context is
done: delete of the connection from the room's inner map. A delete on an
absent room key is a no-op, as delete on a nil Go map is. -/
def unregister : Registry → RoomId → ConnId → Registry
  | [], _, _ => []
  | (r, s) :: rest, room, c =>
      if r = room then (r, s.filter (fun x => x ≠ c)) :: rest
      else (r, s) :: unregister rest room c

/-- Membership of a connection in a room's set, as a decidable Boolean. -/
def inRoomB (reg : Registry) (room : RoomId) (c : ConnId) : Bool :=
  match lookupRoom reg room with
  | none => false
  | some s => decide (c ∈ s)

/-! ### Server state and the broadcast dispatcher notifyClients.
Each connection's context.CancelFunc is instrumented: cancelCount counts
how many times the function has been invoked, cancelled is the one-shot
done signal of the context, which only the first invocation flips. The
outcome of WriteJSON on each connection is the environment sendOk. -/

structure SrvState : Type where
  subscribers : Registry
  cancelCount : ConnId → Nat
  cancelled : ConnId → Bool

/-- Invocation of a connection's cancel function: the invocation counter
always increments, the done signal becomes (and stays) true. -/
def invokeCancel (s : SrvState) (c : ConnId) : SrvState :=
  { s with
    cancelCount := fun n => if n = c then s.cancelCount n + 1 else s.cancelCount n
    cancelled := fun n => if n = c then true else s.cancelled n }

/-- The dispatch loop body: for each connection of the snapshot, attempt
the send; on failure, log and invoke that connection's cancel function,
then continue with the remaining connections. Returns the final state and
the list of connections a send was attempted on, in order. -/
def notifyLoop (sendOk : ConnId → Bool) : List ConnId → SrvState → SrvState × List ConnId
  | [], s => (s, [])
  | c :: rest, s =>
      let s1 := if sendOk c then s else invokeCancel s c
      let out := notifyLoop sendOk rest s1
      (out.1, c :: out.2)

/-- notifyClients: under the lock, look up the room of the message; if the
key is absent or the set is empty, return at once; otherwise run the send
loop over every subscriber. -/
def notifyClients (sendOk : ConnId → Bool) (msgRoomID : RoomId) (s : SrvState) :
    SrvState × List ConnId :=
  match lookupRoom s.subscribers msgRoomID with
  | none => (s, [])
  | some subs => if subs.length = 0 then (s, []) else notifyLoop sendOk subs s

/-! ### The HTTP-facing layer around the core.
External collaborators are embedded as explicit result values: uuid.Parse
of the room_id URL parameter becomes a ParseResult, the pgstore GetRoom
query becomes a DbGet Room (ok, the pgx no-rows signal, or a generic
failure carrying the internal error text), and the list queries GetRooms
and GetRoomMessages become a DbRows (a failure, or rows that may be the
nil slice, modelled as none, as opposed to a present slice). -/

structure Room : Type where
  id : String
  theme : String
deriving DecidableEq, Repr

structure HttpResponse : Type where
  status : Nat
  body : String
deriving DecidableEq, Repr

inductive ParseResult : Type where
  | ok : String → ParseResult
  | err : ParseResult
deriving DecidableEq, Repr

inductive DbGet (α : Type) : Type where
  | ok : α → DbGet α
  | noRows : DbGet α
  | fail : String → DbGet α
deriving DecidableEq, Repr

inductive DbRows (α : Type) : Type where
  | ok : Option (List α) → DbRows α
  | fail : String → DbRows α

/-- Outcome of readRoom: either an error response was written to the
caller (together with the log lines emitted), and the ok flag is false so
the calling handler stops; or the room and the raw room id are returned
and the handler proceeds. -/
inductive ReadRoomOut : Type where
  | err : HttpResponse → List (String × String) → ReadRoomOut
  | okRoom : Room → String → ReadRoomOut
deriving DecidableEq, Repr

/-- readRoom: parse the room_id URL parameter; on a parse error write 400
invalid room id; query GetRoom; on pgx.ErrNoRows write 400 room not
found; on any other error log it and write 500 something went wrong;
otherwise return the room and the raw id. -/
def readRoom (rawRoomID : String) (parse : ParseResult) (get : DbGet Room) : ReadRoomOut :=
  match parse with
  | ParseResult.err =>
      ReadRoomOut.err { status := 400, body := MsgInvalidRoomID } []
  | ParseResult.ok _ =>
      match get with
      | DbGet.noRows =>
          ReadRoomOut.err { status := 400, body := MsgRoomNotFound } []
      | DbGet.fail e =>
          ReadRoomOut.err { status := 500, body := MsgSomethingWentWrong }
            [(MsgFailedToGetRoom, e)]
      | DbGet.ok room => ReadRoomOut.okRoom room rawRoomID

/-- handleSubscribe up to registration: resolve the room via readRoom
(stop on its error), upgrade the connection to websocket (on failure warn
and write 400), then create the room's inner map when absent and register
the connection with a fresh cancel function. Returns the state after the
accept phase and the error response when the accept aborted. -/
def handleSubscribe (rawRoomID : String) (parse : ParseResult) (get : DbGet Room)
    (upgrade : Option ConnId) (s : SrvState) : SrvState × Option HttpResponse :=
  match readRoom rawRoomID parse get with
  | ReadRoomOut.err resp _ => (s, some resp)
  | ReadRoomOut.okRoom _ raw =>
      match upgrade with
      | none => (s, some { status := 400, body := MsgFailedToUpgradeConnection })
      | some c => ({ s with subscribers := register s.subscribers raw c }, none)

/-- The removal step of handleSubscribe, run after its context is done:
delete the connection from the room's inner map under the lock. -/
def subscribeCleanup (s : SrvState) (rawRoomID : String) (c : ConnId) : SrvState :=
  { s with subscribers := unregister s.subscribers rawRoomID c }

/-- handleGetRooms: on a query error log it and write 500 something went
wrong; otherwise replace a nil slice by an empty one and send the JSON
array of encoded rows. The row encoder stands for the marshalling of a
pgstore.Room row. -/
def handleGetRooms {α : Type} (encode : α → Json) (res : DbRows α) :
    HttpResponse × List (String × String) :=
  match res with
  | DbRows.fail e =>
      ({ status := 500, body := MsgSomethingWentWrong }, [(MsgFailedToGetRooms, e)])
  | DbRows.ok rows =>
      ({ status := 200, body := renderJson (Json.arr ((rows.getD []).map encode)) }, [])

/-- handleGetRoomMessages: resolve the room via readRoom (stop on its
error); on a query error log it and write 500; otherwise replace a nil
slice by an empty one and send the JSON array of encoded rows. -/
def handleGetRoomMessages {α : Type} (rawRoomID : String) (parse : ParseResult)
    (get : DbGet Room) (encode : α → Json) (res : DbRows α) :
    HttpResponse × List (String × String) :=
  match readRoom rawRoomID parse get with
  | ReadRoomOut.err resp logs => (resp, logs)
  | ReadRoomOut.okRoom _ _ =>
      match res with
      | DbRows.fail e =>
          ({ status := 500, body := MsgSomethingWentWrong },
            [(MsgFailedToGetRoomMessages, e)])
      | DbRows.ok rows =>
          ({ status := 200, body := renderJson (Json.arr ((rows.getD []).map encode)) }, [])

/-! ### Register and unregister traces, for the one-room-per-handle
invariant. Each connection lifecycle registers its handle under exactly
one room and later unregisters it from that same room; a trace is valid
for a room assignment roomOf when every operation's room is the room
assigned to its connection. -/

inductive RegOp : Type where
  | reg : RoomId → ConnId → RegOp
  | unreg : RoomId → ConnId → RegOp
deriving DecidableEq, Repr

def RegOp.room : RegOp → RoomId
  | RegOp.reg r _ => r
  | RegOp.unreg r _ => r

def RegOp.conn : RegOp → ConnId
  | RegOp.reg _ c => c
  | RegOp.unreg _ c => c

def applyOp (reg : Registry) : RegOp → Registry
  | RegOp.reg room c => register reg room c
  | RegOp.unreg room c => unregister reg room c

def applyTrace (reg : Registry) (ops : List RegOp) : Registry :=
  ops.foldl applyOp reg

/-- Validity of a trace for a room assignment: each operation addresses
the single room its connection is assigned to. -/
def validTrace (roomOf : ConnId → RoomId) (ops : List RegOp) : Prop :=
  ∀ op ∈ ops, op.room = roomOf op.conn

instance (roomOf : ConnId → RoomId) (ops : List RegOp) :
    Decidable (validTrace roomOf ops) := by
  unfold validTrace
  infer_instance

/-! ### Concrete states used to evaluate the development on small inputs -/

/-- A room with two live subscribers, connections 1 and 2, neither yet
cancelled. -/
def wState : SrvState :=
  { subscribers := [("r1", [1, 2])]
    cancelCount := fun _ => 0
    cancelled := fun _ => false }

/-- A room with the single live subscriber connection 1. -/
def w1State : SrvState :=
  { subscribers := [("r1", [1])]
    cancelCount := fun _ => 0
    cancelled := fun _ => false }

/-- Send capability outcomes where connection 2 succeeds and every other
connection fails. -/
def wSendOk : ConnId → Bool := fun c => decide (c = 2)

/-! ### Helper lemmas about the dispatch loop -/

theorem notifyLoop_attempts (sendOk : ConnId → Bool) (subs : List ConnId) (s : SrvState) :
    (notifyLoop sendOk subs s).2 = subs := by
  induction subs generalizing s with
  | nil => rfl
  | cons a rest ih => simp [notifyLoop, ih]

theorem invokeCancel_subscribers (s : SrvState) (c : ConnId) :
    (invokeCancel s c).subscribers = s.subscribers := rfl

theorem notifyLoop_subscribers (sendOk : ConnId → Bool) (subs : List ConnId) (s : SrvState) :
    (notifyLoop sendOk subs s).1.subscribers = s.subscribers := by
  induction subs generalizing s with
  | nil => rfl
  | cons a rest ih =>
      simp only [notifyLoop]
      rw [ih]
      by_cases h : sendOk a = true <;> simp [h, invokeCancel_subscribers]

theorem notifyLoop_cancelCount (sendOk : ConnId → Bool) (subs : List ConnId) (s : SrvState)
    (c : ConnId) :
    (notifyLoop sendOk subs s).1.cancelCount c =
      s.cancelCount c + (if sendOk c = true then 0 else subs.count c) := by
  induction subs generalizing s with
  | nil => simp [notifyLoop]
  | cons a rest ih =>
      simp only [notifyLoop]
      rw [ih]
      by_cases hs : sendOk a = true
      · by_cases hca : c = a
        · subst hca
          simp [hs, List.count_cons]
        · simp only [hs, if_true]
          rw [List.count_cons]
          simp [Ne.symm hca, hca]
      · by_cases hca : c = a
        · subst hca
          simp [hs, invokeCancel, List.count_cons, Nat.add_assoc, Nat.add_comm]
        · simp only [hs, if_false]
          rw [List.count_cons]
          simp [invokeCancel, hca, Ne.symm hca]

theorem notifyLoop_cancelled (sendOk : ConnId → Bool) (subs : List ConnId) (s : SrvState)
    (c : ConnId) :
    (notifyLoop sendOk subs s).1.cancelled c =
      (s.cancelled c || (decide (c ∈ subs) && !(sendOk c))) := by
  induction subs generalizing s with
  | nil => simp [notifyLoop]
  | cons a rest ih =>
      simp only [notifyLoop]
      rw [ih]
      by_cases hs : sendOk a = true
      · by_cases hca : c = a
        · subst hca
          simp [hs]
        · simp [hs, hca]
      · by_cases hca : c = a
        · subst hca
          simp [invokeCancel, hs]
        · simp [invokeCancel, hs, hca]

theorem notifyClients_subscribers_eq (sendOk : ConnId → Bool) (room : RoomId) (s : SrvState) :
    (notifyClients sendOk room s).1.subscribers = s.subscribers := by
  unfold notifyClients
  cases h : lookupRoom s.subscribers room with
  | none => rfl
  | some subs =>
      by_cases hl : subs.length = 0
      · simp [hl]
      · simp [hl, notifyLoop_subscribers]

theorem notifyClients_of_lookup (sendOk : ConnId → Bool) (room : RoomId) (s : SrvState)
    (subs : List ConnId) (h : lookupRoom s.subscribers room = some subs)
    (hne : subs ≠ []) :
    notifyClients sendOk room s = notifyLoop sendOk subs s := by
  unfold notifyClients
  rw [h]
  simp [List.length_eq_zero, hne]

/-! ### Helper lemmas about the registry operations -/

theorem mem_insertConn {s : List ConnId} {c c0 : ConnId} (h : c ∈ insertConn s c0) :
    c ∈ s ∨ c = c0 := by
  unfold insertConn at h
  by_cases hm : c0 ∈ s
  · simp [hm] at h
    exact Or.inl h
  · simp [hm, List.mem_append] at h
    exact h

theorem inRoomB_cons (a : RoomId) (s : List ConnId) (rest : Registry) (r : RoomId)
    (c : ConnId) :
    inRoomB ((a, s) :: rest) r c = if a = r then decide (c ∈ s) else inRoomB rest r c := by
  by_cases har : a = r <;> simp [inRoomB, lookupRoom, har]

theorem inRoomB_register {reg : Registry} {room : RoomId} {c0 : ConnId} {r : RoomId}
    {c : ConnId} (h : inRoomB (register reg room c0) r c = true) :
    inRoomB reg r c = true ∨ (r = room ∧ c = c0) := by
  induction reg with
  | nil =>
      simp only [register] at h
      rw [inRoomB_cons] at h
      by_cases hr : room = r
      · right
        simp [hr] at h
        exact ⟨hr.symm, h⟩
      · simp [hr, inRoomB, lookupRoom] at h
  | cons p rest ih =>
      obtain ⟨a, s⟩ := p
      simp only [register] at h
      by_cases ha : a = room
      · rw [if_pos ha] at h
        rw [inRoomB_cons] at h
        by_cases har : a = r
        · rw [if_pos har] at h
          simp only [decide_eq_true_eq] at h
          rcases mem_insertConn h with hm | hm
          · left
            rw [inRoomB_cons, if_pos har]
            simpa using hm
          · exact Or.inr ⟨har ▸ ha, hm⟩
        · rw [if_neg har] at h
          left
          rw [inRoomB_cons, if_neg har]
          exact h
      · rw [if_neg ha] at h
        rw [inRoomB_cons] at h
        by_cases har : a = r
        · rw [if_pos har] at h
          left
          rw [inRoomB_cons, if_pos har]
          exact h
        · rw [if_neg har] at h
          rcases ih h with hold | hrc
          · left
            rw [inRoomB_cons, if_neg har]
            exact hold
          · exact Or.inr hrc

theorem inRoomB_unregister {reg : Registry} {room : RoomId} {c0 : ConnId} {r : RoomId}
    {c : ConnId} (h : inRoomB (unregister reg room c0) r c = true) :
    inRoomB reg r c = true := by
  induction reg with
  | nil => simpa [unregister] using h
  | cons p rest ih =>
      obtain ⟨a, s⟩ := p
      simp only [unregister] at h
      by_cases ha : a = room
      · rw [if_pos ha] at h
        rw [inRoomB_cons] at h
        rw [inRoomB_cons]
        by_cases har : a = r
        · rw [if_pos har] at h ⊢
          simp only [List.mem_filter, decide_eq_true_eq] at h
          simp only [decide_eq_true_eq]
          exact h.1
        · rw [if_neg har] at h ⊢
          exact h
      · rw [if_neg ha] at h
        rw [inRoomB_cons] at h
        rw [inRoomB_cons]
        by_cases har : a = r
        · rw [if_pos har] at h ⊢
          exact h
        · rw [if_neg har] at h ⊢
          exact ih h

theorem inRoomB_unregister_self (reg : Registry) (room : RoomId) (c : ConnId) :
    inRoomB (unregister reg room c) room c = false := by
  induction reg with
  | nil => simp [unregister, inRoomB, lookupRoom]
  | cons p rest ih =>
      obtain ⟨a, s⟩ := p
      simp only [unregister]
      by_cases ha : a = room
      · rw [if_pos ha]
        rw [inRoomB_cons, if_pos ha]
        simp [List.mem_filter]
      · rw [if_neg ha]
        rw [inRoomB_cons, if_neg ha]
        exact ih

theorem lookupRoom_unregister_other (reg : Registry) (room : RoomId) (c : ConnId)
    (r : RoomId) (hr : r ≠ room) :
    lookupRoom (unregister reg room c) r = lookupRoom reg r := by
  induction reg with
  | nil => rfl
  | cons p rest ih =>
      obtain ⟨a, s⟩ := p
      simp only [unregister]
      by_cases ha : a = room
      · rw [if_pos ha]
        have hne : ¬ (a = r) := fun hh => hr (hh ▸ ha)
        simp [lookupRoom, hne]
      · rw [if_neg ha]
        by_cases har : a = r
        · simp [lookupRoom, har]
        · simp [lookupRoom, har, ih]

theorem filter_ne_of_not_mem {s : List ConnId} {c : ConnId} (h : c ∉ s) :
    s.filter (fun x => x ≠ c) = s := by
  induction s with
  | nil => rfl
  | cons a rest ih =>
      simp only [List.mem_cons, not_or] at h
      rw [List.filter_cons]
      have hac : (decide (a ≠ c)) = true := by
        simp only [decide_eq_true_eq]
        exact fun hh => h.1 hh.symm
      rw [if_pos hac, ih h.2]

theorem unregister_of_not_inRoomB {reg : Registry} {room : RoomId} {c : ConnId}
    (h : inRoomB reg room c = false) : unregister reg room c = reg := by
  induction reg with
  | nil => rfl
  | cons p rest ih =>
      obtain ⟨a, s⟩ := p
      rw [inRoomB_cons] at h
      simp only [unregister]
      by_cases ha : a = room
      · rw [if_pos ha]
        rw [if_pos ha] at h
        simp only [decide_eq_false_iff_not] at h
        rw [filter_ne_of_not_mem h]
      · rw [if_neg ha]
        rw [if_neg ha] at h
        rw [ih h]

theorem unregister_unregister (reg : Registry) (room : RoomId) (c : ConnId) :
    unregister (unregister reg room c) room c = unregister reg room c := by
  induction reg with
  | nil => rfl
  | cons p rest ih =>
      obtain ⟨a, s⟩ := p
      simp only [unregister]
      by_cases ha : a = room
      · subst ha
        simp [unregister, List.filter_filter]
      · simp [unregister, ha, ih]

/-! ### The one-room-per-handle invariant over traces -/

theorem trace_invariant (roomOf : ConnId → RoomId) (ops : List RegOp)
    (hvalid : validTrace roomOf ops) (reg : Registry)
    (hreg : ∀ r c, inRoomB reg r c = true → roomOf c = r) :
    ∀ r c, inRoomB (applyTrace reg ops) r c = true → roomOf c = r := by
  induction ops generalizing reg with
  | nil => exact hreg
  | cons op rest ih =>
      have hop := hvalid op (List.mem_cons_self op rest)
      have hrest : validTrace roomOf rest := fun o ho => hvalid o (List.mem_cons_of_mem op ho)
      have hstep : ∀ r c, inRoomB (applyOp reg op) r c = true → roomOf c = r := by
        intro r c hmem
        cases op with
        | reg room c0 =>
            simp only [applyOp] at hmem
            rcases inRoomB_register hmem with hold | ⟨hr, hc⟩
            · exact hreg r c hold
            · subst hr; subst hc
              exact (hop).symm
        | unreg room c0 =>
            exact hreg r c (inRoomB_unregister hmem)
      exact ih hrest (applyOp reg op) hstep

/-! ### Claim theorems -/

/-- Claim C1: for a room whose registered subscriber set is subs, a
dispatch of an event for that room attempts a send to every one of the
subscribers exactly once — the attempt list is exactly the subscriber
set, it is the same whatever the send outcomes are (so one subscriber's
failure does not prevent the attempts on the others), and under the
registry's no-duplicates discipline each subscriber is attempted exactly
once. -/
theorem notifyClients_attempts_each_subscriber_once
    (sendOk : ConnId → Bool) (room : RoomId) (s : SrvState) (subs : List ConnId)
    (h : lookupRoom s.subscribers room = some subs) :
    (notifyClients sendOk room s).2 = subs ∧
    (notifyClients sendOk room s).2 = (notifyClients (fun _ => true) room s).2 ∧
    (subs.Nodup → ∀ c ∈ subs, (notifyClients sendOk room s).2.count c = 1) := by
  by_cases hne : subs = []
  · subst hne
    unfold notifyClients
    rw [h]
    exact ⟨rfl, rfl, fun _ c hc => absurd hc (List.not_mem_nil c)⟩
  · rw [notifyClients_of_lookup sendOk room s subs h hne,
      notifyClients_of_lookup (fun _ => true) room s subs h hne,
      notifyLoop_attempts, notifyLoop_attempts]
    exact ⟨rfl, rfl, fun hnd c hc => List.count_eq_one_of_mem hnd hc⟩

/-- Witness: in the two-subscriber room r1, with connection 1 failing and
connection 2 succeeding, both subscribers are attempted. -/
theorem notifyClients_attempts_each_subscriber_once_witness :
    lookupRoom wState.subscribers "r1" = some [1, 2] ∧
    ((notifyClients wSendOk "r1" wState).2 = [1, 2] ∧
      (notifyClients wSendOk "r1" wState).2 = (notifyClients (fun _ => true) "r1" wState).2 ∧
      (([1, 2] : List ConnId).Nodup →
        ∀ c ∈ ([1, 2] : List ConnId), (notifyClients wSendOk "r1" wState).2.count c = 1)) :=
  ⟨rfl, notifyClients_attempts_each_subscriber_once wSendOk "r1" wState [1, 2] rfl⟩

/-- Claim C2 as stated is false on the code: with connection 1 the sole
subscriber of room r1 and its sends failing, a second dispatch before the
lifecycle cleanup has removed it finds it still registered, fails the
send again, and invokes its cancel function a second time — the
invocation count is 2, not 1. -/
theorem notifyClients_cancel_invoked_twice_counterexample :
    ((notifyClients (fun _ => false) "r1"
        ((notifyClients (fun _ => false) "r1" w1State).1)).1).cancelCount 1 = 2 ∧
    ¬ (((notifyClients (fun _ => false) "r1"
        ((notifyClients (fun _ => false) "r1" w1State).1)).1).cancelCount 1 = 1) := by
  refine ⟨by decide, by decide⟩

/-- Claim C2 (amended): for every subscriber whose send fails during a
dispatch, the dispatch invokes its cancellation function exactly once;
if dispatch is invoked again for the same room before the subscriber's
lifecycle cleanup has completed, the function is invoked once more per
failing dispatch, but the cancellation signal itself is idempotent: the
first failing dispatch sets the cancelled state and later invocations
leave it unchanged, so the subscriber's termination is signalled only
once. -/
theorem notifyClients_cancel_once_per_failing_dispatch
    (sendOk : ConnId → Bool) (room : RoomId) (s : SrvState) (subs : List ConnId)
    (c : ConnId) (h : lookupRoom s.subscribers room = some subs) (hnd : subs.Nodup)
    (hc : c ∈ subs) (hfail : sendOk c = false) :
    (notifyClients sendOk room s).1.cancelled c = true ∧
    (notifyClients sendOk room s).1.cancelCount c = s.cancelCount c + 1 ∧
    (notifyClients sendOk room (notifyClients sendOk room s).1).1.cancelCount c =
      s.cancelCount c + 2 ∧
    (notifyClients sendOk room (notifyClients sendOk room s).1).1.cancelled c =
      (notifyClients sendOk room s).1.cancelled c := by
  have hne : subs ≠ [] := fun hnil => by simp [hnil] at hc
  have hcount : subs.count c = 1 := List.count_eq_one_of_mem hnd hc
  have h1 : lookupRoom ((notifyClients sendOk room s).1).subscribers room = some subs := by
    rw [notifyClients_subscribers_eq]
    exact h
  rw [notifyClients_of_lookup sendOk room s subs h hne]
  rw [notifyClients_of_lookup sendOk room _ subs
    (by rw [← notifyClients_of_lookup sendOk room s subs h hne]; exact h1) hne]
  constructor
  · rw [notifyLoop_cancelled]
    simp [hc, hfail]
  constructor
  · rw [notifyLoop_cancelCount]
    simp [hfail, hcount]
  constructor
  · rw [notifyLoop_cancelCount, notifyLoop_cancelCount]
    simp [hfail, hcount]
  · rw [notifyLoop_cancelled, notifyLoop_cancelled]
    simp [hc, hfail]

/-- Witness for the amended claim on the one-subscriber room with a
failing send. -/
theorem notifyClients_cancel_once_per_failing_dispatch_witness :
    (lookupRoom w1State.subscribers "r1" = some [1] ∧ ([1] : List ConnId).Nodup ∧
      (1 : ConnId) ∈ ([1] : List ConnId) ∧ (fun _ : ConnId => false) 1 = false) ∧
    ((notifyClients (fun _ => false) "r1" w1State).1.cancelled 1 = true ∧
      (notifyClients (fun _ => false) "r1" w1State).1.cancelCount 1 =
        w1State.cancelCount 1 + 1 ∧
      (notifyClients (fun _ => false) "r1"
          (notifyClients (fun _ => false) "r1" w1State).1).1.cancelCount 1 =
        w1State.cancelCount 1 + 2 ∧
      (notifyClients (fun _ => false) "r1"
          (notifyClients (fun _ => false) "r1" w1State).1).1.cancelled 1 =
        (notifyClients (fun _ => false) "r1" w1State).1.cancelled 1) :=
  ⟨⟨rfl, by decide, by decide, rfl⟩,
    notifyClients_cancel_once_per_failing_dispatch (fun _ => false) "r1" w1State [1] 1
      rfl (by decide) (by decide) rfl⟩

/-- Claim C3: a dispatch never mutates the registry mapping — the
subscribers field is unchanged; the cancel state of any connection whose
send succeeds, and of any connection not registered in the dispatched
room, is unchanged (only failing subscribers' cancel functions are
invoked); and removal from the room's set is the lifecycle cleanup's
doing: the cleanup step removes exactly its connection from its room and
leaves every other room's entry of the registry as it was. -/
theorem notifyClients_registry_frame
    (sendOk : ConnId → Bool) (room : RoomId) (s : SrvState) (c : ConnId) (r' : RoomId)
    (hr' : r' ≠ room) :
    (notifyClients sendOk room s).1.subscribers = s.subscribers ∧
    (sendOk c = true →
      (notifyClients sendOk room s).1.cancelCount c = s.cancelCount c ∧
      (notifyClients sendOk room s).1.cancelled c = s.cancelled c) ∧
    (inRoomB s.subscribers room c = false →
      (notifyClients sendOk room s).1.cancelCount c = s.cancelCount c ∧
      (notifyClients sendOk room s).1.cancelled c = s.cancelled c) ∧
    inRoomB (subscribeCleanup s room c).subscribers room c = false ∧
    lookupRoom (subscribeCleanup s room c).subscribers r' = lookupRoom s.subscribers r' := by
  refine ⟨notifyClients_subscribers_eq sendOk room s, ?_, ?_,
    inRoomB_unregister_self s.subscribers room c,
    lookupRoom_unregister_other s.subscribers room c r' hr'⟩
  · intro hok
    unfold notifyClients
    cases hl : lookupRoom s.subscribers room with
    | none => exact ⟨rfl, rfl⟩
    | some subs =>
        by_cases hz : subs.length = 0
        · simp [hz]
        · simp only [hz, if_false]
          rw [notifyLoop_cancelCount, notifyLoop_cancelled]
          simp [hok]
  · intro hni
    unfold notifyClients
    cases hl : lookupRoom s.subscribers room with
    | none => exact ⟨rfl, rfl⟩
    | some subs =>
        by_cases hz : subs.length = 0
        · simp [hz]
        · simp only [hz, if_false]
          have hcm : c ∉ subs := by
            intro hmem
            unfold inRoomB at hni
            rw [hl] at hni
            simp [hmem] at hni
          rw [notifyLoop_cancelCount, notifyLoop_cancelled]
          simp [List.count_eq_zero_of_not_mem hcm, hcm]

/-- Witness: on the two-subscriber room, the frame conditions hold at the
succeeding connection 2 and at the unregistered connection 7, and the
cleanup of connection 1 empties exactly room r1. -/
theorem notifyClients_registry_frame_witness :
    ((fun _ : ConnId => true) 2 = true ∧ inRoomB wState.subscribers "r1" 7 = false ∧
      "r2" ≠ "r1") ∧
    ((notifyClients (fun _ => true) "r1" wState).1.subscribers = wState.subscribers ∧
      ((notifyClients (fun _ => true) "r1" wState).1.cancelCount 2 = wState.cancelCount 2 ∧
        (notifyClients (fun _ => true) "r1" wState).1.cancelled 2 = wState.cancelled 2) ∧
      inRoomB (subscribeCleanup wState "r1" 1).subscribers "r1" 1 = false ∧
      lookupRoom (subscribeCleanup wState "r1" 1).subscribers "r2" =
        lookupRoom wState.subscribers "r2") :=
  ⟨⟨rfl, by decide, by decide⟩,
    (notifyClients_registry_frame (fun _ => true) "r1" wState 2 "r2" (by decide)).1,
    (notifyClients_registry_frame (fun _ => true) "r1" wState 2 "r2" (by decide)).2.1 rfl,
    (notifyClients_registry_frame (fun _ => true) "r1" wState 1 "r2" (by decide)).2.2.2.1,
    (notifyClients_registry_frame (fun _ => true) "r1" wState 1 "r2" (by decide)).2.2.2.2⟩

/-- Claim C4: a dispatch for a room whose set is absent from the
registry, or present but empty, returns with the state untouched and an
empty attempt list — the two cases produce identical results. -/
theorem notifyClients_no_subscribers
    (sendOk : ConnId → Bool) (room : RoomId) (s : SrvState)
    (h : lookupRoom s.subscribers room = none ∨ lookupRoom s.subscribers room = some []) :
    notifyClients sendOk room s = (s, []) := by
  unfold notifyClients
  rcases h with h | h <;> rw [h]
  rfl

/-- Witness: dispatch to the room r9, absent from the registry, is a
no-op; dispatch to a room held empty by the registry is the identical
no-op. -/
theorem notifyClients_no_subscribers_witness :
    (lookupRoom wState.subscribers "r9" = none ∨
      lookupRoom wState.subscribers "r9" = some []) ∧
    notifyClients wSendOk "r9" wState = (wState, []) :=
  ⟨Or.inl rfl, notifyClients_no_subscribers wSendOk "r9" wState (Or.inl rfl)⟩

/-- Claim C5: under the lifecycle discipline — every operation of a trace
addresses the one room assigned to its connection — a connection handle
is present in at most one room's set of the registry built from the
trace. -/
theorem registry_handle_in_at_most_one_room
    (roomOf : ConnId → RoomId) (ops : List RegOp) (hvalid : validTrace roomOf ops)
    (r1 r2 : RoomId) (c : ConnId)
    (h1 : inRoomB (applyTrace [] ops) r1 c = true)
    (h2 : inRoomB (applyTrace [] ops) r2 c = true) : r1 = r2 := by
  have hbase : ∀ r c0, inRoomB ([] : Registry) r c0 = true → roomOf c0 = r := by
    intro r c0 hx
    simp [inRoomB, lookupRoom] at hx
  have hinv := trace_invariant roomOf ops hvalid [] hbase
  rw [← hinv r1 c h1, ← hinv r2 c h2]

/-- Witness: after registering connection 1 in room a and connection 2 in
room b and unregistering connection 1, connection 2 is found only in room
b. -/
theorem registry_handle_in_at_most_one_room_witness :
    (validTrace (fun c => if c = 1 then "a" else "b")
        [RegOp.reg "a" 1, RegOp.reg "b" 2, RegOp.unreg "a" 1] ∧
      inRoomB (applyTrace [] [RegOp.reg "a" 1, RegOp.reg "b" 2, RegOp.unreg "a" 1]) "b" 2 =
        true) ∧
    ("b" : RoomId) = "b" :=
  ⟨⟨by decide, by decide⟩,
    registry_handle_in_at_most_one_room (fun c => if c = 1 then "a" else "b")
      [RegOp.reg "a" 1, RegOp.reg "b" 2, RegOp.unreg "a" 1] (by decide) "b" "b" 2
      (by decide) (by decide)⟩

/-- Claim C6: unregistering is idempotent — removing a handle that is
absent from the room's set, or removing from a room with no set, leaves
the registry unchanged, and applying the same unregister twice equals
applying it once. -/
theorem unregister_idempotent (reg : Registry) (room : RoomId) (c : ConnId) :
    (inRoomB reg room c = false → unregister reg room c = reg) ∧
    unregister (unregister reg room c) room c = unregister reg room c :=
  ⟨unregister_of_not_inRoomB, unregister_unregister reg room c⟩

/-- Witness: removing the absent connection 5 from room r1 is a no-op,
and removing connection 1 twice equals removing it once. -/
theorem unregister_idempotent_witness :
    (inRoomB [("r1", [1, 2])] "r1" 5 = false ∧
      unregister [("r1", [1, 2])] "r1" 5 = [("r1", [1, 2])]) ∧
    unregister (unregister [("r1", [1, 2])] "r1" 1) "r1" 1 =
      unregister [("r1", [1, 2])] "r1" 1 :=
  ⟨⟨by decide, (unregister_idempotent [("r1", [1, 2])] "r1" 5).1 (by decide)⟩,
    (unregister_idempotent [("r1", [1, 2])] "r1" 1).2⟩

/-- Claim C7: every event delivered to a subscriber is serialized in the
wire shape with exactly the fields kind and value, the kind of each
produced event is one of the four declared kind strings, the
message_created value carries id and message, the
message_reaction_increased value carries id and count, and the room
identifier never influences the serialized payload (the RoomID field is
marshalled away). -/
theorem message_event_wire_shape (rid mid text : String) (cnt : Int) (m : Message)
    (r : String) :
    messageToJson (createdEvent rid mid text) =
      Json.obj [("kind", Json.str MessageKindMessageCreated),
        ("value", Json.obj [("id", Json.str mid), ("message", Json.str text)])] ∧
    messageToJson (reactionIncreasedEvent rid mid cnt) =
      Json.obj [("kind", Json.str MessageKindMessageRactionIncreased),
        ("value", Json.obj [("id", Json.str mid), ("count", Json.num cnt)])] ∧
    (createdEvent rid mid text).Kind ∈ [MessageKindMessageCreated,
      MessageKindMessageRactionIncreased, MessageKindMessageRactionDecreased,
      MessageKindMessageAnswered] ∧
    (reactionIncreasedEvent rid mid cnt).Kind ∈ [MessageKindMessageCreated,
      MessageKindMessageRactionIncreased, MessageKindMessageRactionDecreased,
      MessageKindMessageAnswered] ∧
    messageToJson { m with RoomID := r } = messageToJson m := by
  refine ⟨rfl, rfl, ?_, ?_, rfl⟩
  · simp [createdEvent]
  · simp [reactionIncreasedEvent]

/-- Claim C8: when the accept phase of the subscribe handler fails —
the room resolution wrote an error, or the websocket upgrade errored —
the handler stops with an error reported to the HTTP layer and the
server state, the registry mapping included, is exactly what it was: no
registry entry is created for the connection. -/
theorem handleSubscribe_failed_accept (raw : String) (parse : ParseResult)
    (get : DbGet Room) (upgrade : Option ConnId) (s : SrvState)
    (h : (∃ resp logs, readRoom raw parse get = ReadRoomOut.err resp logs) ∨
      upgrade = none) :
    (handleSubscribe raw parse get upgrade s).1 = s ∧
    ((handleSubscribe raw parse get upgrade s).2).isSome = true := by
  unfold handleSubscribe
  rcases h with ⟨resp, logs, herr⟩ | hup
  · rw [herr]
    exact ⟨rfl, rfl⟩
  · cases hrr : readRoom raw parse get with
    | err resp logs => exact ⟨rfl, rfl⟩
    | okRoom rm rawOut =>
        subst hup
        exact ⟨rfl, rfl⟩

/-- Witness: a subscribe request with a malformed room id leaves the
two-subscriber state untouched and reports an error. -/
theorem handleSubscribe_failed_accept_witness :
    ((∃ resp logs, readRoom "zzz" ParseResult.err DbGet.noRows = ReadRoomOut.err resp logs) ∨
      (some 3 : Option ConnId) = none) ∧
    ((handleSubscribe "zzz" ParseResult.err DbGet.noRows (some 3) wState).1 = wState ∧
      ((handleSubscribe "zzz" ParseResult.err DbGet.noRows (some 3) wState).2).isSome =
        true) :=
  ⟨Or.inl ⟨{ status := 400, body := MsgInvalidRoomID }, [], rfl⟩,
    handleSubscribe_failed_accept "zzz" ParseResult.err DbGet.noRows (some 3) wState
      (Or.inl ⟨{ status := 400, body := MsgInvalidRoomID }, [], rfl⟩)⟩

/-- Claim C9: resolving a room from a request yields exactly one of a
400 invalid room id client error on a malformed identifier, a 400 room
not found client error on an absent room, a logged 500 something went
wrong server error on an upstream fault — whose response body is the
generic constant and not the internal error text, which goes only to the
log — or success carrying the room, and the handler proceeds exactly in
the success case. -/
theorem readRoom_outcome_taxonomy (raw : String) (parse : ParseResult)
    (get : DbGet Room) :
    ((parse = ParseResult.err ∧
        readRoom raw parse get =
          ReadRoomOut.err { status := 400, body := MsgInvalidRoomID } []) ∨
      ((∃ u, parse = ParseResult.ok u) ∧ get = DbGet.noRows ∧
        readRoom raw parse get =
          ReadRoomOut.err { status := 400, body := MsgRoomNotFound } []) ∨
      ((∃ u, parse = ParseResult.ok u) ∧ ∃ e, get = DbGet.fail e ∧
        readRoom raw parse get =
          ReadRoomOut.err { status := 500, body := MsgSomethingWentWrong }
            [(MsgFailedToGetRoom, e)]) ∨
      ((∃ u, parse = ParseResult.ok u) ∧ ∃ rm, get = DbGet.ok rm ∧
        readRoom raw parse get = ReadRoomOut.okRoom rm raw)) ∧
    ((∃ rm rawOut, readRoom raw parse get = ReadRoomOut.okRoom rm rawOut) ↔
      ((∃ u, parse = ParseResult.ok u) ∧ ∃ rm, get = DbGet.ok rm)) := by
  cases parse with
  | err =>
      refine ⟨Or.inl ⟨rfl, rfl⟩, ?_⟩
      simp [readRoom]
  | ok u =>
      cases get with
      | noRows =>
          refine ⟨Or.inr (Or.inl ⟨⟨u, rfl⟩, rfl, rfl⟩), ?_⟩
          simp [readRoom]
      | fail e =>
          refine ⟨Or.inr (Or.inr (Or.inl ⟨⟨u, rfl⟩, e, rfl, rfl⟩)), ?_⟩
          simp [readRoom]
      | ok rm =>
          refine ⟨Or.inr (Or.inr (Or.inr ⟨⟨u, rfl⟩, rm, rfl, rfl⟩)), ?_⟩
          simp [readRoom]

/-- Claim C10: when the persistence layer returns a nil list, the
room-listing and message-listing handlers respond with the empty JSON
array, never the JSON null that marshalling the nil slice itself would
produce. -/
theorem nil_rows_render_empty_array {α β : Type} (encR : α → Json) (encM : β → Json)
    (raw u : String) (rm : Room) :
    handleGetRooms encR (DbRows.ok none) = ({ status := 200, body := "[]" }, []) ∧
    handleGetRoomMessages raw (ParseResult.ok u) (DbGet.ok rm) encM (DbRows.ok none) =
      ({ status := 200, body := "[]" }, []) ∧
    renderJson Json.null = "null" ∧ "[]" ≠ "null" := by
  exact ⟨rfl, rfl, rfl, by decide⟩

end WsrsApi
